import Mathlib

set_option maxHeartbeats 1000000

/-!
Verification development for the guard-mode zone allocator
(xnu/osfmk/kern/gzalloc.c) and for SOSRingIsSame
(Security/keychain/SecureObjectSync/SOSRingUtils.c).

Shallow embedding conventions:
* machine integers become Nat, with explicit truncation (% 2^32) where the
  C code casts to uint32_t;
* raw byte memory becomes a function from addresses to byte values, and the
  gzalloc header overlay becomes a function from addresses to header records;
* each panic becomes an error value of an explicit panic type;
* external collaborators (the VM map, the zone lock, boot-arg parsing) are
  passed in as parameters or modelled by the values they return.
-/

/-- PAGE_SIZE used by the model (4 KiB, the common xnu page size). -/
def PAGE_SIZE : Nat := 4096

/-- round_page: round up to the next page multiple. -/
def round_page (n : Nat) : Nat := (n + PAGE_SIZE - 1) / PAGE_SIZE * PAGE_SIZE

/-- trunc_page / trunc_page_64: round down to a page multiple
(addr & ~PAGE_MASK in the C code). -/
def trunc_page (n : Nat) : Nat := n / PAGE_SIZE * PAGE_SIZE

/-- GZHEADER_SIZE = sizeof(gzhdr_t): an 8-byte zone pointer plus two
4-byte unsigned integers (gzsize, gzsig). -/
def GZHEADER_SIZE : Nat := 16

/-- Size of a pointer on the 64-bit targets this file is built for.
In gzalloc_free, sizeof(gzh) is the size of the local gzhdr_t pointer,
which is this constant, not GZHEADER_SIZE. -/
def PTR_SIZE : Nat := 8

/-- GZALLOC_SIGNATURE (0xABADCAFE). -/
def GZALLOC_SIGNATURE : Nat := 0xABADCAFE

/-- GZDEADZONE, the sentinel owner recorded for allocations made before the
VM subsystem is ready ((zone_t) 0xDEAD201E). -/
def GZDEADZONE : Nat := 0xDEAD201E

/-- gzalloc_fill_pattern = 0x67 (the character g). -/
def gzalloc_fill_pattern : Nat := 0x67

/-- rounded_size = round_page(zone_elem_size(zone) + GZHEADER_SIZE),
as computed in gzalloc_alloc, gzalloc_free and gzalloc_empty_free_cache. -/
def gz_rounded_size (esize : Nat) : Nat := round_page (esize + GZHEADER_SIZE)

/-- residue = rounded_size - zone_elem_size(zone), as computed in
gzalloc_alloc and gzalloc_free. -/
def gz_residue (esize : Nat) : Nat := gz_rounded_size esize - esize

/-- The gzalloc per-allocation header (struct gzalloc_header): the owning
zone (modelled as a Nat zone identifier standing for the zone pointer),
the recorded element size (uint32_t) and the signature (uint32_t). -/
structure GzHeader where
  gzone : Nat
  gzsize : Nat
  gzsig : Nat
deriving DecidableEq

/-- The tunables frozen by gzalloc_configure from boot arguments. -/
structure GzConfig where
  gzalloc_mode : Bool
  gzalloc_min : Nat
  gzalloc_max : Nat
  gzalloc_uf_mode : Bool
  gzalloc_consistency_checks : Bool
  gzalloc_dfree_check : Bool
  gzfc_size : Nat
  gznamedzone : String
deriving DecidableEq

/-- The global gzalloc counters (updated with atomics in the C code). -/
structure GzCounters where
  gzalloc_allocated : Nat
  gzalloc_freed : Nat
  gzalloc_early_alloc : Nat
  gzalloc_early_free : Nat
  gzalloc_wasted : Int
  pdzalloc_count : Nat
  pdzfree_count : Nat
deriving DecidableEq

/-- The per-CPU zone statistics the engine touches (zpercpu_get(zstats)). -/
structure ZStats where
  zs_mem_allocated : Nat
  zs_mem_freed : Nat
deriving DecidableEq

/-- The slice of struct zone the engine reads and writes.  The free cache
ring z->gz.gzfc is modelled as a total function from slot numbers to stored
addresses (slot value 0 means empty, as in the C code); only slots below
gzfc_size are ever read or written by the model, mirroring the array. -/
structure ZoneState where
  z_name : String
  z_elem_size : Nat
  z_gzalloc_tracked : Bool
  gzfc : Nat → Nat
  gzfc_index : Nat
  z_elems_free : Int
  z_wired_cur : Int
  z_va_cur : Nat

/-- Every panic site of the modelled code, with the values the panic
message reports. -/
inductive GzPanic where
  | invalidAddress (addr saddr : Nat)
  | doubleFree (saddr index gd : Nat)
  | sigMismatch (addr expected found : Nat)
  | zoneMismatch (zone recorded addr : Nat)
  | sizeMismatch (recorded esize : Nat) (addr : Nat)
  | fillMismatch (byteAddr addr contents : Nat)
  | reserveExhausted
  | mapEntryMissing (addr : Nat)
  | nonAtomicEntry (addr : Nat)
  | sigMissing (addr : Nat)
  | zoneUntracked (zoneId : Nat)
deriving DecidableEq

/-- What a successful gzalloc_free did: the updated zone, per-CPU stats and
global counters, the vm_map_protect call it issued (start and end of the
protected range), and the range it handed to kmem_free (address, size). -/
structure FreeResult where
  zone : ZoneState
  zstats : ZStats
  counters : GzCounters
  prot_call : Option (Nat × Nat)
  released : Option (Nat × Nat)

/-- Ambient state gzalloc_alloc consumes: the startup phase
(startup_phase >= STARTUP_SUB_KMEM), whether vm_page_zone is populated,
the preemption level, the bootstrap reserve bump pointer and remaining
size, and the fresh address the kernel_memory_allocate collaborator would
return. -/
structure AllocEnv where
  kmem_ready : Bool
  vm_page_zone_ready : Bool
  preemption_level : Nat
  gzalloc_reserve : Nat
  gzalloc_reserve_size : Nat
  gzaddr_kma : Nat

/-- What gzalloc_alloc produced: the returned element pointer (0 models the
NULL returned on the Z_NOWAIT path), updated zone / stats / counters, the
header memory and byte memory after the writes, and the reserve after any
early-boot carve. -/
structure AllocResult where
  ret : Nat
  zone : ZoneState
  zstats : ZStats
  counters : GzCounters
  hdr : Nat → GzHeader
  mem : Nat → Nat
  reserve : Nat × Nat

/-- Projection used to state facts about the returned pointer of an
allocation without naming the whole result record. -/
def allocRetOf (x : Except GzPanic AllocResult) : Option Nat :=
  x.toOption.map AllocResult.ret

/-- The slice of a VM map entry gzalloc_element_size consults. -/
structure VmEntry where
  vme_start : Nat
  vme_end : Nat
  vme_atomic : Bool
deriving DecidableEq

/-- The header ("footer" in underflow mode) address gzalloc_free computes
from the element pointer: addr + zone_elem_size in underflow mode,
addr - GZHEADER_SIZE in overflow mode. -/
def gz_hdr_addr (uf : Bool) (esize addr : Nat) : Nat :=
  if uf then addr + esize else addr - GZHEADER_SIZE

/-- The fill-pattern scan of gzalloc_free: starting at a byte address and
walking the given number of bytes, return the address of the first byte
that does not equal gzalloc_fill_pattern (the C loop panics there), or
none when every byte matches. -/
def fillCheck (mem : Nat → Nat) : Nat → Nat → Option Nat
  | _, 0 => none
  | start, n + 1 =>
    if mem start = gzalloc_fill_pattern then fillCheck mem (start + 1) n
    else some start

/-- The double-free scan of gzalloc_free: the first ring slot gd below N
whose stored address equals saddr (the C loop panics at the first hit). -/
def ringScan (ring : Nat → Nat) (saddr N : Nat) : Option Nat :=
  (List.range N).find? fun gd => ring gd == saddr

/-- The free-cache insertion of gzalloc_free (under the zone lock): wrap
gzfc_index when it reached gzfc_size, read the evicted occupant, overwrite
the slot with saddr, advance the index.  Returns the updated ring, the
updated index and the evicted address (0 when the slot was empty). -/
def gzfc_insert (N : Nat) (ring : Nat → Nat) (index saddr : Nat) :
    (Nat → Nat) × Nat × Nat :=
  let i := if N ≤ index then 0 else index
  (fun s => if s = i then saddr else ring s, i + 1, ring i)

/-- One free, seen by the free cache: insert the freed base address and
append the evicted occupant, if any, to the list of ranges released to the
arena (gzalloc_free only calls kmem_free when free_addr is non-zero). -/
def gzfc_step (N : Nat) (st : (Nat → Nat) × Nat × List Nat) (saddr : Nat) :
    (Nat → Nat) × Nat × List Nat :=
  let r := gzfc_insert N st.1 st.2.1 saddr
  (r.1, r.2.1, if r.2.2 ≠ 0 then st.2.2 ++ [r.2.2] else st.2.2)

/-- A sequence of frees hitting an initially empty free cache: final ring,
final insertion index, and every address released to the arena, in release
order. -/
def gzfc_run (N : Nat) (L : List Nat) : (Nat → Nat) × Nat × List Nat :=
  L.foldl (gzfc_step N) (fun _ => 0, 0, [])

/-- The signature scan of gzalloc_element_size in overflow mode: walk
32-bit words from address p for the given number of words and return the
address of the first word equal to GZALLOC_SIGNATURE. -/
def sigScan (words : Nat → Nat) : Nat → Nat → Option Nat
  | _, 0 => none
  | p, n + 1 =>
    if words p = GZALLOC_SIGNATURE then some p else sigScan words (p + 4) n

/-- Modelled from the spec: track_this_zone (defined in zalloc, outside
this repository slice) matches a zone name against the gzname boot token
character by character, where a period in the token matches a space in the
zone name. -/
def nameMatch : List Char → List Char → Bool
  | [], [] => true
  | zc :: zs, lc :: ls => (zc == lc || (zc == ' ' && lc == '.')) && nameMatch zs ls
  | _, _ => false

/-- Modelled from the spec: track_this_zone over String zone names. -/
def track_this_zone (zonename logname : String) : Bool :=
  nameMatch zonename.toList logname.toList

/-- gzalloc_zone_init: decide whether a zone is tracked and, for tracked
zones with a free cache, carve the ring storage (from the reserve before
kmem is ready).  The global gztrackzone pointer is modelled as an optional
zone identifier threaded through; returns the updated gztrackzone, the
updated zone, and the updated reserve bump pointer and remaining size. -/
def gzalloc_zone_init (cfg : GzConfig) (kmem_ready : Bool)
    (gztrackzone : Option Nat) (reserve reserve_size : Nat)
    (zoneId : Nat) (zone : ZoneState) :
    Except GzPanic (Option Nat × ZoneState × Nat × Nat) :=
  if ¬ cfg.gzalloc_mode then .ok (gztrackzone, zone, reserve, reserve_size)
  else
    let zone1 : ZoneState := { zone with gzfc := fun _ => 0, gzfc_index := 0 }
    let gtz := if track_this_zone zone.z_name cfg.gznamedzone then some zoneId
               else gztrackzone
    let zone2 : ZoneState := { zone1 with
      z_gzalloc_tracked := decide (gtz = some zoneId ∨
        (cfg.gzalloc_min ≤ zone.z_elem_size ∧ zone.z_elem_size ≤ cfg.gzalloc_max)) }
    if cfg.gzfc_size ≠ 0 ∧ zone2.z_gzalloc_tracked then
      let gzfcsz := round_page (PTR_SIZE * cfg.gzfc_size)
      if ¬ kmem_ready then
        if reserve_size < gzfcsz then .error .reserveExhausted
        else .ok (gtz, zone2, reserve + gzfcsz, reserve_size - gzfcsz)
      else .ok (gtz, zone2, reserve, reserve_size)
    else .ok (gtz, zone2, reserve, reserve_size)

/-- Shared tail of gzalloc_alloc after the VA source is chosen: layout of
element, header(s) and zero fill, then the counter updates under the zone
lock.  kready is kmem_ready && vm_page_zone, deciding the recorded owner. -/
def gzallocLayout (cfg : GzConfig) (kready : Bool)
    (hdr : Nat → GzHeader) (mem : Nat → Nat)
    (zoneId : Nat) (zone : ZoneState) (zstats : ZStats) (ctr : GzCounters)
    (gzaddr0 : Nat) (new_va : Bool) (reserve reserve_size : Nat) :
    Except GzPanic AllocResult :=
  let rounded_size := gz_rounded_size zone.z_elem_size
  let residue := gz_residue zone.z_elem_size
  let gzaddr := if cfg.gzalloc_uf_mode then gzaddr0 + PAGE_SIZE else gzaddr0
  let gzhAddr := if cfg.gzalloc_uf_mode then gzaddr + zone.z_elem_size
                 else gzaddr + residue - GZHEADER_SIZE
  let addr := if cfg.gzalloc_uf_mode then gzaddr else gzaddr + residue
  let copyAddr : Option Nat := if cfg.gzalloc_uf_mode then
      some (gzaddr + rounded_size - GZHEADER_SIZE) else none
  let mem1 := fun c => if gzaddr ≤ c ∧ c < gzaddr + rounded_size then 0 else mem c
  let hval : GzHeader :=
    { gzone := if kready then zoneId else GZDEADZONE,
      gzsize := zone.z_elem_size % 2 ^ 32,
      gzsig := GZALLOC_SIGNATURE }
  let hdr1 := fun a => if a = gzhAddr then hval else hdr a
  let hdr2 := match copyAddr with
    | some ca => fun a => if a = ca then hval else hdr1 a
    | none => hdr1
  .ok { ret := addr,
        zone := { zone with
          z_elems_free := zone.z_elems_free - 1,
          z_va_cur := if new_va then zone.z_va_cur + 1 else zone.z_va_cur,
          z_wired_cur := zone.z_wired_cur + 1 },
        zstats := { zstats with
          zs_mem_allocated := zstats.zs_mem_allocated + rounded_size },
        counters := { ctr with
          gzalloc_allocated := ctr.gzalloc_allocated + rounded_size,
          gzalloc_wasted := ctr.gzalloc_wasted + (residue : Int) },
        hdr := hdr2, mem := mem1, reserve := (reserve, reserve_size) }

/-- gzalloc_alloc.  The zone lock, the per-CPU stat pointer and the atomic
counter updates collapse to plain record updates in this sequential model;
kernel_memory_allocate is modelled by the fresh address env.gzaddr_kma it
would return (page aligned, zero filled, guard page attached).  Byte
memory and header memory are updated separately: bzero is recorded on the
byte view, the header stores on the header view. -/
def gzalloc_alloc (cfg : GzConfig) (env : AllocEnv) (nowait : Bool)
    (hdr : Nat → GzHeader) (mem : Nat → Nat)
    (zoneId : Nat) (zone : ZoneState) (zstats : ZStats) (ctr : GzCounters) :
    Except GzPanic AllocResult :=
  if env.preemption_level ≠ 0 ∧ nowait then
    .ok { ret := 0, zone := zone, zstats := zstats, counters := ctr,
          hdr := hdr, mem := mem,
          reserve := (env.gzalloc_reserve, env.gzalloc_reserve_size) }
  else
    let ctr1 := if env.preemption_level ≠ 0 then
        { ctr with pdzalloc_count := ctr.pdzalloc_count + 1 } else ctr
    let rounded_size := gz_rounded_size zone.z_elem_size
    if ¬ env.kmem_ready ∨ ¬ env.vm_page_zone_ready then
      if env.gzalloc_reserve_size < rounded_size + PAGE_SIZE then
        .error .reserveExhausted
      else
        let gzaddr := env.gzalloc_reserve
        let ctr2 := { ctr1 with
          gzalloc_early_alloc := ctr1.gzalloc_early_alloc + rounded_size }
        gzallocLayout cfg false hdr mem zoneId zone zstats ctr2 gzaddr false
          (env.gzalloc_reserve + rounded_size + PAGE_SIZE)
          (env.gzalloc_reserve_size - (rounded_size + PAGE_SIZE))
    else
      gzallocLayout cfg true hdr mem zoneId zone zstats ctr1 env.gzaddr_kma true
        env.gzalloc_reserve env.gzalloc_reserve_size

/-- The tail of gzalloc_free, reached once the checks have passed and the
free is not an early-boot leak: count a preemption-disabled free, either
write protect / unmap the range (when a free cache exists) or select it
for direct release, insert into the free cache rotating out the prior
occupant, update the zone counters and per-CPU stats under the zone lock,
and hand any selected range to kmem_free. -/
def gzallocFreeTail (cfg : GzConfig) (plvl : Nat) (zone : ZoneState)
    (zstats : ZStats) (ctr : GzCounters) (saddr : Nat) : FreeResult :=
  let rounded_size := gz_rounded_size zone.z_elem_size
  let residue := gz_residue zone.z_elem_size
  let ctr1 := if plvl ≠ 0 then
      { ctr with pdzfree_count := ctr.pdzfree_count + 1 } else ctr
  let prot_call : Option (Nat × Nat) := if cfg.gzfc_size ≠ 0 then
      some (saddr, saddr + rounded_size + PAGE_SIZE) else none
  let ins := if cfg.gzfc_size ≠ 0 then
      gzfc_insert cfg.gzfc_size zone.gzfc zone.gzfc_index saddr
    else (zone.gzfc, zone.gzfc_index, saddr)
  let free_addr := ins.2.2
  let zone1 := { zone with
    gzfc := ins.1, gzfc_index := ins.2.1,
    z_elems_free := if free_addr ≠ 0 then zone.z_elems_free + 1
                    else zone.z_elems_free,
    z_wired_cur := if free_addr ≠ 0 then zone.z_wired_cur - 1
                   else zone.z_wired_cur }
  let zstats1 := { zstats with
    zs_mem_freed := zstats.zs_mem_freed + rounded_size }
  if free_addr ≠ 0 then
    { zone := zone1, zstats := zstats1,
      counters := { ctr1 with
        gzalloc_freed := ctr1.gzalloc_freed + rounded_size,
        gzalloc_wasted := ctr1.gzalloc_wasted - (residue : Int) },
      prot_call := prot_call,
      released := some (free_addr, rounded_size + PAGE_SIZE) }
  else
    { zone := zone1, zstats := zstats1, counters := ctr1,
      prot_call := prot_call, released := none }

/-- gzalloc_free.  Follows the C control flow: recover the header and base
addresses per mode, panic on a non-page-aligned base, run the double-free
ring scan when the cache exists and the check is enabled, run the
consistency checks (signature, owner zone, recorded size, fill pattern)
when enabled, leak early frees, then protect and enqueue the range in the
free cache (or select it for direct release when there is no cache) and
update the counters; finally release the evicted range, if any
(gzallocFreeTail). -/
def gzalloc_free (cfg : GzConfig) (kmem_ready : Bool) (preemption_level : Nat)
    (hdr : Nat → GzHeader) (mem : Nat → Nat)
    (zoneId : Nat) (zone : ZoneState) (zstats : ZStats) (ctr : GzCounters)
    (addr : Nat) : Except GzPanic FreeResult :=
  let rounded_size := gz_rounded_size zone.z_elem_size
  let residue := gz_residue zone.z_elem_size
  let gzhAddr := gz_hdr_addr cfg.gzalloc_uf_mode zone.z_elem_size addr
  let saddr := if cfg.gzalloc_uf_mode then addr - PAGE_SIZE else addr - residue
  if saddr % PAGE_SIZE ≠ 0 then
    .error (.invalidAddress addr saddr)
  else
    match (if cfg.gzfc_size ≠ 0 ∧ cfg.gzalloc_dfree_check then
             ringScan zone.gzfc saddr cfg.gzfc_size else none) with
    | some gd => .error (.doubleFree saddr zone.gzfc_index gd)
    | none =>
      let gzh := hdr gzhAddr
      if cfg.gzalloc_consistency_checks ∧ gzh.gzsig ≠ GZALLOC_SIGNATURE then
        .error (.sigMismatch addr GZALLOC_SIGNATURE gzh.gzsig)
      else if cfg.gzalloc_consistency_checks ∧ gzh.gzone ≠ zoneId ∧
          gzh.gzone ≠ GZDEADZONE then
        .error (.zoneMismatch zoneId gzh.gzone addr)
      else if cfg.gzalloc_consistency_checks ∧ gzh.gzsize ≠ zone.z_elem_size then
        .error (.sizeMismatch gzh.gzsize zone.z_elem_size addr)
      else
        let checkstart := if cfg.gzalloc_uf_mode then gzhAddr + PTR_SIZE
                          else trunc_page addr
        let checkend := if cfg.gzalloc_uf_mode then trunc_page addr + PAGE_SIZE
                        else gzhAddr
        match (if cfg.gzalloc_consistency_checks then
                 fillCheck mem checkstart (checkend - checkstart) else none) with
        | some c => .error (.fillMismatch c addr (mem c))
        | none =>
          if ¬ kmem_ready ∨ gzh.gzone = GZDEADZONE then
            .ok { zone := zone, zstats := zstats,
                  counters := { ctr with
                    gzalloc_early_free := ctr.gzalloc_early_free + rounded_size },
                  prot_call := none, released := none }
          else
            .ok (gzallocFreeTail cfg preemption_level zone zstats ctr saddr)

/-- gzalloc_empty_free_cache: snapshot and zero the ring and its index
under the zone lock, release every non-zero entry that lies inside the
gzalloc range, then add the released count to the zone counters.  The
arena bounds check (kmem_range_contains) is modelled, from the spec, as a
point-in-range test against the given bounds. -/
def gzalloc_empty_free_cache (cfg : GzConfig) (range : Nat × Nat)
    (zone : ZoneState) (ctr : GzCounters) :
    ZoneState × GzCounters × List (Nat × Nat) :=
  let rounded_size := gz_rounded_size zone.z_elem_size
  let copy := zone.gzfc
  let zone1 : ZoneState := { zone with gzfc := fun _ => 0, gzfc_index := 0 }
  let released := (List.range cfg.gzfc_size).filterMap fun i =>
    if copy i ≠ 0 ∧ range.1 ≤ copy i ∧ copy i < range.2 then
      some (copy i, rounded_size + PAGE_SIZE) else none
  let freed_elements := released.length
  let zone2 : ZoneState := { zone1 with
    z_elems_free := zone1.z_elems_free + freed_elements,
    z_wired_cur := zone1.z_wired_cur - freed_elements }
  let ctr1 : GzCounters := { ctr with
    gzalloc_freed := ctr.gzalloc_freed + rounded_size * freed_elements,
    gzalloc_wasted :=
      ctr.gzalloc_wasted - (gz_residue zone.z_elem_size : Int) * freed_elements }
  (zone2, ctr1, released)

/-- gzalloc_element_size: reverse lookup from an arbitrary address.  The
ok-none result models returning FALSE (not mine); ok-some returns the
owner zone identifier and the reported size.  The VM map is modelled by a
lookup function from addresses to the covering entry; arena membership
(kmem_range_contains, defined outside this repository slice) is modelled,
from the spec, as a point-in-range test; 32-bit word reads during the
overflow-mode scan are modelled by the words function; zones maps a zone
identifier to its current state (zone_elem_size, z_gzalloc_tracked). -/
def gzalloc_element_size (cfg : GzConfig) (range : Nat × Nat)
    (lookup : Nat → Option VmEntry) (words : Nat → Nat) (hdr : Nat → GzHeader)
    (zones : Nat → ZoneState) (a : Nat) :
    Except GzPanic (Option (Nat × Nat)) :=
  if cfg.gzalloc_mode ∧ range.1 ≤ a ∧ a < range.2 then
    match lookup a with
    | none => .error (.mapEntryMissing a)
    | some vme =>
      if ¬ vme.vme_atomic then .error (.nonAtomicEntry a)
      else
        match (if cfg.gzalloc_uf_mode then
                 .ok (vme.vme_end - GZHEADER_SIZE)
               else
                 match sigScan words vme.vme_start
                     ((vme.vme_end - vme.vme_start + 3) / 4) with
                 | none => .error (.sigMissing a)
                 | some p => .ok (p + 4 - GZHEADER_SIZE) :
                 Except GzPanic Nat) with
        | .error e => .error e
        | .ok gzhAddr =>
          let gzh := hdr gzhAddr
          if gzh.gzsig ≠ GZALLOC_SIGNATURE then
            .error (.sigMismatch a GZALLOC_SIGNATURE gzh.gzsig)
          else if ¬ (zones gzh.gzone).z_gzalloc_tracked then
            .error (.zoneUntracked gzh.gzone)
          else .ok (some (gzh.gzone, (zones gzh.gzone).z_elem_size))
  else .ok none

/-- A SOS ring, modelled by the values its accessors return:
SOSRingGetName (NULL becomes none), SOSRingGetType, SOSRingGetVersion
(both return 0-valued defaults when the dictionary entry is absent), and
SOSRingGetIdentifier. -/
structure SOSRing where
  name : Option String
  ringType : Nat
  ringVersion : Nat
  identifier : Option String
deriving DecidableEq

/-- SOSRingGetName. -/
def SOSRingGetName (r : SOSRing) : Option String := r.name

/-- SOSRingGetType. -/
def SOSRingGetType (r : SOSRing) : Nat := r.ringType

/-- SOSRingGetVersion. -/
def SOSRingGetVersion (r : SOSRing) : Nat := r.ringVersion

/-- SOSRingGetIdentifier. -/
def SOSRingGetIdentifier (r : SOSRing) : Option String := r.identifier

/-- SOSRingIsSame, transliterated from SOSRingUtils.c: both names must be
present and equal; then type1 = SOSRingGetType(ring1) is compared against
type2 = SOSRingGetVersion(ring2) (the source reads the version of ring2
where its local variable is named type2), requiring both non-zero and
equal; then both identifiers must be present and equal. -/
def SOSRingIsSame (ring1 ring2 : SOSRing) : Bool :=
  match SOSRingGetName ring1, SOSRingGetName ring2 with
  | some name1, some name2 =>
    if name1 ≠ name2 then false
    else
      let type1 := SOSRingGetType ring1
      let type2 := SOSRingGetVersion ring2
      if type1 = 0 ∨ type2 = 0 then false
      else if type1 ≠ type2 then false
      else
        match SOSRingGetIdentifier ring1, SOSRingGetIdentifier ring2 with
        | some id1, some id2 => id1 = id2
        | _, _ => false
  | _, _ => false

/-! ## Basic arithmetic facts about the layout -/

/-- Rounding up to a page multiple never shrinks. -/
theorem le_round_page (n : Nat) : n ≤ round_page n := by
  unfold round_page PAGE_SIZE
  omega

/-- The residue is at least a header. -/
theorem GZHEADER_SIZE_le_gz_residue (esize : Nat) :
    GZHEADER_SIZE ≤ gz_residue esize := by
  have h := le_round_page (esize + GZHEADER_SIZE)
  unfold gz_residue gz_rounded_size at *
  omega

/-- The element fits under the rounded size. -/
theorem le_gz_rounded_size (esize : Nat) : esize ≤ gz_rounded_size esize := by
  have h := le_round_page (esize + GZHEADER_SIZE)
  unfold gz_rounded_size at *
  omega

/-! ## Claim C2 -/

/-- Concrete inputs exercising gzalloc_alloc in overflow mode with the VM
ready, used to exhibit the residue actually computed by the allocator. -/
def c2cfg : GzConfig :=
  { gzalloc_mode := true, gzalloc_min := 1024, gzalloc_max := 4096,
    gzalloc_uf_mode := false, gzalloc_consistency_checks := true,
    gzalloc_dfree_check := true, gzfc_size := 0, gznamedzone := "" }

def c2env : AllocEnv :=
  { kmem_ready := true, vm_page_zone_ready := true, preemption_level := 0,
    gzalloc_reserve := 0, gzalloc_reserve_size := 0, gzaddr_kma := 40960 }

def c2zone : ZoneState :=
  { z_name := "c2", z_elem_size := 1024, z_gzalloc_tracked := true,
    gzfc := fun _ => 0, gzfc_index := 0, z_elems_free := 10, z_wired_cur := 5,
    z_va_cur := 5 }

def c2stats : ZStats := { zs_mem_allocated := 0, zs_mem_freed := 0 }

def c2ctr : GzCounters :=
  { gzalloc_allocated := 0, gzalloc_freed := 0, gzalloc_early_alloc := 0,
    gzalloc_early_free := 0, gzalloc_wasted := 0, pdzalloc_count := 0,
    pdzfree_count := 0 }

def c2hdr : Nat → GzHeader := fun _ => { gzone := 0, gzsize := 0, gzsig := 0 }

def c2mem : Nat → Nat := fun _ => 0

/-- Claim C2 counterexample: for a 1024-byte element the allocator returns
element pointer 44032 from base 40960, so the residue it computes and
subtracts back from the element pointer is 3072 = P - E; but
residue + element_size + header_size = 3072 + 1024 + 16 = 4112, which is
not P = 4096.  The claimed identity fails on the code. -/
theorem C2_counterexample :
    allocRetOf (gzalloc_alloc c2cfg c2env false c2hdr c2mem 1 c2zone c2stats
      c2ctr) = some 44032 ∧
    44032 - 40960 = gz_residue 1024 ∧
    gz_residue 1024 + 1024 + GZHEADER_SIZE ≠ gz_rounded_size 1024 :=
  ⟨rfl, by decide, by decide⟩

/-- Claim C2 (amended): with P = round_up(E + H, page) the identity that
holds by construction for the residue the allocator computes (residue =
P - E, both in gzalloc_alloc and gzalloc_free) is
residue + element_size == P; the header lives inside the residue, so
header_size is not added on top. -/
theorem C2_residue_identity (esize : Nat) :
    gz_residue esize + esize = gz_rounded_size esize := by
  have h := le_gz_rounded_size esize
  unfold gz_residue at *
  omega

/-! ## Claim C9 -/

/-- Claim C9: SOSRingIsSame compares ring1's type against ring2's version.
Whenever both names are present and equal, SOSRingGetType(ring1) and
SOSRingGetVersion(ring2) are non-zero, and the two values differ, the
function returns false - regardless of ring2's actual type, so in
particular even when the two types are equal. -/
theorem C9_type_vs_version (r1 r2 : SOSRing) (n : String)
    (h1 : SOSRingGetName r1 = some n) (h2 : SOSRingGetName r2 = some n)
    (ht : SOSRingGetType r1 ≠ 0) (hv : SOSRingGetVersion r2 ≠ 0)
    (hne : SOSRingGetType r1 ≠ SOSRingGetVersion r2) :
    SOSRingIsSame r1 r2 = false := by
  unfold SOSRingIsSame
  rw [h1, h2]
  simp only [ne_eq, not_true_eq_false, if_false, ite_eq_right_iff]
  simp [ht, hv, hne]

/-- Two rings with equal names, equal types (both 5), but ring2 version 7:
SOSRingIsSame rejects them because it compares type 5 to version 7. -/
def c9r1 : SOSRing :=
  { name := some "backup", ringType := 5, ringVersion := 1,
    identifier := some "A" }

def c9r2 : SOSRing :=
  { name := some "backup", ringType := 5, ringVersion := 7,
    identifier := some "A" }

/-- Claim C9 witness: concrete rings with equal non-null names and equal
types, non-zero type1 = 5 and version2 = 7; the comparison fails. -/
theorem C9_type_vs_version_witness : SOSRingIsSame c9r1 c9r2 = false :=
  C9_type_vs_version c9r1 c9r2 "backup" rfl rfl (by decide) (by decide)
    (by decide)

/-! ## Claim C10 -/

/-- Claim C10: gzalloc_free runs the double-free ring scan only when both
gzfc_size is non-zero and gzalloc_dfree_check is enabled.  With
gzfc_size = 0 no free (in particular not the second free of the same
pointer) can produce the double-free panic, even with the check tunable
on, and the outcome of every free is identical to what it would be with
the double-free check disabled. -/
theorem C10_dfree_scan_guard (cfg : GzConfig) (kready : Bool) (plvl : Nat)
    (hdr : Nat → GzHeader) (mem : Nat → Nat) (zoneId : Nat) (zone : ZoneState)
    (zstats : ZStats) (ctr : GzCounters) (addr : Nat)
    (hfc : cfg.gzfc_size = 0) :
    (∀ s i g, gzalloc_free cfg kready plvl hdr mem zoneId zone zstats ctr addr ≠
        .error (.doubleFree s i g)) ∧
    gzalloc_free cfg kready plvl hdr mem zoneId zone zstats ctr addr =
      gzalloc_free { cfg with gzalloc_dfree_check := false } kready plvl hdr mem
        zoneId zone zstats ctr addr := by
  constructor
  · intro s i g h
    simp only [gzalloc_free, hfc, ne_eq, not_true_eq_false, false_and,
      if_false] at h
    repeat' split at h
    all_goals simp_all
  · simp [gzalloc_free, gzallocFreeTail, hfc]

/-- Claim C10 witness: a concrete configuration with a double-free check
enabled but gzfc_size = 0; no free can report a double free, and the
check flag is irrelevant to the outcome. -/
def c10cfg : GzConfig :=
  { gzalloc_mode := true, gzalloc_min := 1024, gzalloc_max := 4096,
    gzalloc_uf_mode := false, gzalloc_consistency_checks := true,
    gzalloc_dfree_check := true, gzfc_size := 0, gznamedzone := "" }

def c10zone : ZoneState :=
  { z_name := "c10", z_elem_size := 1024, z_gzalloc_tracked := true,
    gzfc := fun _ => 0, gzfc_index := 0, z_elems_free := 10, z_wired_cur := 5,
    z_va_cur := 5 }

def c10hdr : Nat → GzHeader :=
  fun _ => { gzone := 1, gzsize := 1024, gzsig := GZALLOC_SIGNATURE }

def c10mem : Nat → Nat := fun _ => gzalloc_fill_pattern

theorem C10_dfree_scan_guard_witness :
    (∀ s i g, gzalloc_free c10cfg true 0 c10hdr c10mem 1 c10zone c2stats c2ctr
        7168 ≠ .error (.doubleFree s i g)) ∧
    gzalloc_free c10cfg true 0 c10hdr c10mem 1 c10zone c2stats c2ctr 7168 =
      gzalloc_free { c10cfg with gzalloc_dfree_check := false } true 0 c10hdr
        c10mem 1 c10zone c2stats c2ctr 7168 :=
  C10_dfree_scan_guard c10cfg true 0 c10hdr c10mem 1 c10zone c2stats c2ctr
    7168 rfl

/-! ## Claim C7 -/

/-- Claim C7: when the VM subsystem is not yet ready, or the recorded owner
is the pre-VM sentinel GZDEADZONE, a non-panicking gzalloc_free only adds
rounded_size to gzalloc_early_free and leaks the allocation: the zone and
its per-CPU stats are untouched, no protection call is issued and no range
is released. -/
theorem C7_early_free_leak (cfg : GzConfig) (kready : Bool) (plvl : Nat)
    (hdr : Nat → GzHeader) (mem : Nat → Nat) (zoneId : Nat) (zone : ZoneState)
    (zstats : ZStats) (ctr : GzCounters) (addr : Nat) (r : FreeResult)
    (hearly : kready = false ∨
      (hdr (gz_hdr_addr cfg.gzalloc_uf_mode zone.z_elem_size addr)).gzone =
        GZDEADZONE)
    (hok : gzalloc_free cfg kready plvl hdr mem zoneId zone zstats ctr addr =
      .ok r) :
    r.zone = zone ∧ r.zstats = zstats ∧ r.prot_call = none ∧
    r.released = none ∧
    r.counters = { ctr with gzalloc_early_free :=
      ctr.gzalloc_early_free + gz_rounded_size zone.z_elem_size } := by
  simp only [gzalloc_free] at hok
  repeat' split at hok
  all_goals try exact Except.noConfusion hok
  all_goals first
    | (rcases hearly with h1 | h2 <;> simp_all <;> done)
    | (injection hok with h; subst h; exact ⟨rfl, rfl, rfl, rfl, rfl⟩)

/-- Concrete inputs for the early-free witness: overflow mode, element size
4080 (so the element pointer 4112 has base 4096), VM not ready. -/
def c7cfg : GzConfig :=
  { gzalloc_mode := true, gzalloc_min := 1024, gzalloc_max := 4096,
    gzalloc_uf_mode := false, gzalloc_consistency_checks := true,
    gzalloc_dfree_check := false, gzfc_size := 0, gznamedzone := "" }

def c7zone : ZoneState :=
  { z_name := "c7", z_elem_size := 4080, z_gzalloc_tracked := true,
    gzfc := fun _ => 0, gzfc_index := 0, z_elems_free := 10, z_wired_cur := 5,
    z_va_cur := 5 }

def c7hdr : Nat → GzHeader :=
  fun _ => { gzone := GZDEADZONE, gzsize := 4080, gzsig := GZALLOC_SIGNATURE }

def c7mem : Nat → Nat := fun _ => gzalloc_fill_pattern

/-- The result of the concrete early free. -/
def c7res : FreeResult :=
  { zone := c7zone, zstats := c2stats,
    counters := { c2ctr with gzalloc_early_free := 4096 },
    prot_call := none, released := none }

/-- Claim C7 witness: a concrete pre-VM free leaks the allocation and only
bumps gzalloc_early_free by the rounded size (4096). -/
theorem C7_early_free_leak_witness :
    c7res.zone = c7zone ∧ c7res.zstats = c2stats ∧ c7res.prot_call = none ∧
    c7res.released = none ∧
    c7res.counters = { c2ctr with gzalloc_early_free :=
      c2ctr.gzalloc_early_free + gz_rounded_size c7zone.z_elem_size } :=
  C7_early_free_leak c7cfg false 0 c7hdr c7mem 1 c7zone c2stats c2ctr 4112
    c7res (Or.inl rfl) rfl

/-! ## Claim C8 -/

/-- Mapping every element to none filters everything away. -/
theorem filterMap_none_eq_nil {α β : Type} (l : List α) :
    l.filterMap (fun _ => (none : Option β)) = [] := by
  induction l with
  | nil => rfl
  | cons a t ih => simp [List.filterMap_cons, ih]

/-- Claim C8: gzalloc_empty_free_cache is idempotent.  The first call
zeroes the ring and resets gzfc_index, so an immediately following second
call releases no ranges and leaves the zone counters and the global
freed/wasted counters unchanged. -/
theorem C8_empty_free_cache_idempotent (cfg : GzConfig) (range : Nat × Nat)
    (zone : ZoneState) (ctr : GzCounters) :
    (gzalloc_empty_free_cache cfg range
        (gzalloc_empty_free_cache cfg range zone ctr).1
        (gzalloc_empty_free_cache cfg range zone ctr).2.1).2.2 = [] ∧
    (gzalloc_empty_free_cache cfg range
        (gzalloc_empty_free_cache cfg range zone ctr).1
        (gzalloc_empty_free_cache cfg range zone ctr).2.1).1 =
      (gzalloc_empty_free_cache cfg range zone ctr).1 ∧
    (gzalloc_empty_free_cache cfg range
        (gzalloc_empty_free_cache cfg range zone ctr).1
        (gzalloc_empty_free_cache cfg range zone ctr).2.1).2.1 =
      (gzalloc_empty_free_cache cfg range zone ctr).2.1 := by
  simp [gzalloc_empty_free_cache, filterMap_none_eq_nil]

/-! ## Claim C6 -/

/-- Claim C6: a freshly constructed zone passed to gzalloc_zone_init ends
up marked tracked iff the engine is enabled and (its name matches the
configured named zone, or its element size lies in [gzalloc_min,
gzalloc_max]).  The hypothesis on gztrackzone says this zone was not
already registered as the named tracked zone (zone_init runs once per
zone at construction). -/
theorem C6_tracked_iff (cfg : GzConfig) (kready : Bool) (gtz : Option Nat)
    (reserve rsize zoneId : Nat) (zone : ZoneState)
    (out : Option Nat × ZoneState × Nat × Nat)
    (hprev : gtz ≠ some zoneId)
    (hinit : zone.z_gzalloc_tracked = false)
    (hok : gzalloc_zone_init cfg kready gtz reserve rsize zoneId zone =
      .ok out) :
    out.2.1.z_gzalloc_tracked = true ↔
      (cfg.gzalloc_mode = true ∧
        (track_this_zone zone.z_name cfg.gznamedzone = true ∨
         (cfg.gzalloc_min ≤ zone.z_elem_size ∧
          zone.z_elem_size ≤ cfg.gzalloc_max))) := by
  cases hmode : cfg.gzalloc_mode with
  | false =>
    simp only [gzalloc_zone_init, hmode] at hok
    simp only [Bool.false_eq_true, not_false_eq_true, if_true] at hok
    injection hok with h
    subst h
    simp [hinit, hmode]
  | true =>
    rw [gzalloc_zone_init,
      if_neg (show ¬ ¬ cfg.gzalloc_mode = true by simp [hmode])] at hok
    simp only [] at hok
    repeat' split at hok
    all_goals try exact Except.noConfusion hok
    all_goals (
      injection hok with h
      subst h
      by_cases ht : track_this_zone zone.z_name cfg.gznamedzone = true <;>
        simp_all)

/-- Concrete configuration for the tracking witness: enabled, range
[1024, 2048], no named zone, no free cache. -/
def c6cfg : GzConfig :=
  { gzalloc_mode := true, gzalloc_min := 1024, gzalloc_max := 2048,
    gzalloc_uf_mode := false, gzalloc_consistency_checks := true,
    gzalloc_dfree_check := true, gzfc_size := 0, gznamedzone := "" }

def c6zone : ZoneState :=
  { z_name := "c6zone", z_elem_size := 1024, z_gzalloc_tracked := false,
    gzfc := fun _ => 0, gzfc_index := 0, z_elems_free := 0, z_wired_cur := 0,
    z_va_cur := 0 }

/-- The result of initializing c6zone: no name match, size in range, so the
zone comes out tracked. -/
def c6out : Option Nat × ZoneState × Nat × Nat :=
  (none, { c6zone with z_gzalloc_tracked := true }, 0, 0)

/-- Claim C6 witness: the concrete 1024-byte zone is marked tracked, and
the characterization instantiates to it. -/
theorem C6_tracked_iff_witness :
    c6out.2.1.z_gzalloc_tracked = true ↔
      (c6cfg.gzalloc_mode = true ∧
        (track_this_zone c6zone.z_name c6cfg.gznamedzone = true ∨
         (c6cfg.gzalloc_min ≤ c6zone.z_elem_size ∧
          c6zone.z_elem_size ≤ c6cfg.gzalloc_max))) :=
  C6_tracked_iff c6cfg true none 0 0 1 c6zone c6out (by decide) rfl rfl

/-! ## Claim C3 -/

/-- The header value a successful allocation leaves where gzalloc_free will
look for it: at ret - GZHEADER_SIZE in overflow mode, at ret +
zone_elem_size in underflow mode. -/
def allocHdrAt (uf : Bool) (esize : Nat) (r : AllocResult) : GzHeader :=
  r.hdr (gz_hdr_addr uf esize r.ret)

/-- Claim C3: for a tracked zone, in either layout mode, an allocation
performed once the VM is ready (and not the Z_NOWAIT null return) leaves,
at the header location recovered from the returned pointer, a header whose
element size is the zone element size, whose signature is
GZALLOC_SIGNATURE, and whose owner is the allocating zone. -/
theorem C3_header_roundtrip (cfg : GzConfig) (env : AllocEnv) (nowait : Bool)
    (hdr : Nat → GzHeader) (mem : Nat → Nat) (zoneId : Nat) (zone : ZoneState)
    (zstats : ZStats) (ctr : GzCounters)
    (_htr : zone.z_gzalloc_tracked = true)
    (hk : env.kmem_ready = true) (hv : env.vm_page_zone_ready = true)
    (hE : zone.z_elem_size < 2 ^ 32)
    (hpn : ¬ (env.preemption_level ≠ 0 ∧ nowait = true)) :
    (gzalloc_alloc cfg env nowait hdr mem zoneId zone zstats ctr).toOption.map
        (allocHdrAt cfg.gzalloc_uf_mode zone.z_elem_size) =
      some { gzone := zoneId, gzsize := zone.z_elem_size,
             gzsig := GZALLOC_SIGNATURE } := by
  have hres : gz_residue zone.z_elem_size + zone.z_elem_size =
      gz_rounded_size zone.z_elem_size := C2_residue_identity zone.z_elem_size
  have hhd := GZHEADER_SIZE_le_gz_residue zone.z_elem_size
  simp only [gzalloc_alloc, hk, hv, hpn, if_false, Bool.not_eq_true,
    not_false_eq_true, or_self, if_neg, gzallocLayout]
  cases huf : cfg.gzalloc_uf_mode with
  | false =>
    simp only [huf, if_false, Bool.false_eq_true, Except.toOption,
      Option.map_some]
    unfold allocHdrAt gz_hdr_addr
    simp only [Bool.false_eq_true, if_false]
    have haddr : env.gzaddr_kma + gz_residue zone.z_elem_size - GZHEADER_SIZE =
        env.gzaddr_kma + (gz_residue zone.z_elem_size - GZHEADER_SIZE) := by
      omega
    simp [haddr, Nat.mod_eq_of_lt hE]
    omega
  | true =>
    simp only [huf, if_true, Except.toOption, Option.map_some]
    unfold allocHdrAt gz_hdr_addr
    by_cases hca : env.gzaddr_kma + PAGE_SIZE + zone.z_elem_size =
        env.gzaddr_kma + PAGE_SIZE + gz_rounded_size zone.z_elem_size -
          GZHEADER_SIZE <;>
      simp [hca, Nat.mod_eq_of_lt hE] <;> exact hE

/-- Claim C3 witness: the concrete overflow-mode allocation from a tracked
1024-byte zone leaves the expected header at ret - GZHEADER_SIZE. -/
theorem C3_header_roundtrip_witness :
    (gzalloc_alloc c2cfg c2env false c2hdr c2mem 1 c2zone c2stats
        c2ctr).toOption.map
        (allocHdrAt c2cfg.gzalloc_uf_mode c2zone.z_elem_size) =
      some { gzone := 1, gzsize := 1024, gzsig := GZALLOC_SIGNATURE } :=
  C3_header_roundtrip c2cfg c2env false c2hdr c2mem 1 c2zone c2stats c2ctr
    rfl rfl rfl (by decide) (by simp)

/-! ## Claim C5 -/

/-- Claim C5 (amended): gzalloc_element_size returns not-mine exactly when
the engine is disabled or the address is outside the arena range; when it
returns successfully with (z, sz), sz is the owner zone's current element
size (zone_elem_size(header.owner_zone), not the header's recorded gzsize
field), the owner zone is still tracked, and the header it located carried
the owner z and a valid signature. -/
theorem C5_reverse_lookup (cfg : GzConfig) (range : Nat × Nat)
    (lookup : Nat → Option VmEntry) (words : Nat → Nat) (hdr : Nat → GzHeader)
    (zones : Nat → ZoneState) (a : Nat) :
    (gzalloc_element_size cfg range lookup words hdr zones a = .ok none ↔
      ¬ (cfg.gzalloc_mode = true ∧ range.1 ≤ a ∧ a < range.2)) ∧
    (∀ z sz,
      gzalloc_element_size cfg range lookup words hdr zones a =
          .ok (some (z, sz)) →
        sz = (zones z).z_elem_size ∧ (zones z).z_gzalloc_tracked = true ∧
        ∃ ha, (hdr ha).gzone = z ∧ (hdr ha).gzsig = GZALLOC_SIGNATURE) := by
  constructor
  · simp only [gzalloc_element_size]
    split
    case isTrue hin =>
      refine iff_of_false ?_ (by simp [hin])
      intro h
      repeat' split at h
      all_goals simp_all
    case isFalse hout => simp [hout]
  · intro z sz hok
    simp only [gzalloc_element_size] at hok
    repeat' split at hok
    all_goals try exact Except.noConfusion hok
    all_goals (
      injection hok with h
      first
        | exact Option.noConfusion h
        | (injection h with h
           injection h with h1 h2
           subst h1
           subst h2
           refine ⟨rfl, ?_, _, rfl, ?_⟩ <;> simp_all))

/-- Inputs exhibiting the C5 discrepancy: the header records element size
123, but the owner zone's element size is 456; the lookup reports 456. -/
def c5cfg : GzConfig :=
  { gzalloc_mode := true, gzalloc_min := 64, gzalloc_max := 4096,
    gzalloc_uf_mode := true, gzalloc_consistency_checks := true,
    gzalloc_dfree_check := true, gzfc_size := 0, gznamedzone := "" }

def c5lookup : Nat → Option VmEntry :=
  fun _ => some { vme_start := 8192, vme_end := 16384, vme_atomic := true }

def c5words : Nat → Nat := fun _ => 0

def c5hdr : Nat → GzHeader :=
  fun _ => { gzone := 7, gzsize := 123, gzsig := GZALLOC_SIGNATURE }

def c5zones : Nat → ZoneState :=
  fun _ => { z_name := "c5", z_elem_size := 456, z_gzalloc_tracked := true,
             gzfc := fun _ => 0, gzfc_index := 0, z_elems_free := 0,
             z_wired_cur := 0, z_va_cur := 0 }

/-- Claim C5 counterexample: for an in-arena address, the function returns
element size 456 = zone_elem_size(header.owner_zone) even though the
header's recorded element size field is 123: it does not report the
allocation's recorded element size. -/
theorem C5_counterexample :
    gzalloc_element_size c5cfg (4096, 1000000) c5lookup c5words c5hdr c5zones
        8192 = .ok (some (7, 456)) ∧
    (c5hdr (16384 - GZHEADER_SIZE)).gzsize = 123 ∧ (456 : Nat) ≠ 123 :=
  ⟨rfl, rfl, by decide⟩

/-- Claim C5 witness: the not-mine characterization at an out-of-arena
address, and the success characterization at the concrete in-arena
lookup. -/
theorem C5_reverse_lookup_witness :
    (gzalloc_element_size c5cfg (4096, 1000000) c5lookup c5words c5hdr
        c5zones 0 = .ok none ↔
      ¬ (c5cfg.gzalloc_mode = true ∧ 4096 ≤ 0 ∧ 0 < 1000000)) ∧
    (456 = (c5zones 7).z_elem_size ∧ (c5zones 7).z_gzalloc_tracked = true ∧
      ∃ ha, (c5hdr ha).gzone = 7 ∧ (c5hdr ha).gzsig = GZALLOC_SIGNATURE) :=
  ⟨(C5_reverse_lookup c5cfg (4096, 1000000) c5lookup c5words c5hdr c5zones
      0).1,
   (C5_reverse_lookup c5cfg (4096, 1000000) c5lookup c5words c5hdr c5zones
      8192).2 7 456 rfl⟩

/-! ## Claim C1 -/

/-- Characterization of the fill-pattern scan: it reports exactly the first
byte address in [s, s + n) whose content differs from the fill pattern. -/
theorem fillCheck_eq_some_iff (mem : Nat → Nat) :
    ∀ n s c : Nat,
      fillCheck mem s n = some c ↔
        (s ≤ c ∧ c < s + n ∧ mem c ≠ gzalloc_fill_pattern ∧
         ∀ b, s ≤ b → b < c → mem b = gzalloc_fill_pattern) := by
  intro n
  induction n with
  | zero =>
    intro s c
    constructor
    · intro h
      exact absurd h (by simp [fillCheck])
    · rintro ⟨h1, h2, -, -⟩
      exact absurd h2 (by omega)
  | succ n ih =>
    intro s c
    simp only [fillCheck]
    by_cases hs : mem s = gzalloc_fill_pattern
    · rw [if_pos hs, ih (s + 1) c]
      constructor
      · rintro ⟨h1, h2, h3, h4⟩
        refine ⟨by omega, by omega, h3, ?_⟩
        intro b hb1 hb2
        rcases Nat.eq_or_lt_of_le hb1 with he | hl
        · exact he ▸ hs
        · exact h4 b (by omega) hb2
      · rintro ⟨h1, h2, h3, h4⟩
        have hcs : c ≠ s := fun he => h3 (he ▸ hs)
        exact ⟨by omega, by omega, h3, fun b hb1 hb2 => h4 b (by omega) hb2⟩
    · rw [if_neg hs]
      constructor
      · intro h
        injection h with h
        subst h
        exact ⟨Nat.le_refl s, by omega, hs,
          fun b hb1 hb2 => absurd hb1 (by omega)⟩
      · rintro ⟨h1, h2, h3, h4⟩
        have hcs : c = s := by
          by_contra hne
          exact hs (h4 s (Nat.le_refl s) (by omega))
        rw [hcs]

/-- Claim C1 (amended): in underflow mode with consistency checks on, for
a free that passes the alignment, double-free, signature, zone and size
checks, the fill scan covers exactly
[header_start + PTR_SIZE, trunc_page(element_ptr) + PAGE_SIZE): the C code
advances past the header by sizeof(gzh) - the size of the header POINTER,
8 bytes - rather than sizeof(gzhdr_t) = 16, so the scan begins in the
middle of the header, 8 bytes before its end; it ends at the end of the
element's page.  gzalloc_free panics exactly at the first byte of that
region that differs from gzalloc_fill_pattern. -/
theorem C1_uf_fill_region (cfg : GzConfig) (kready : Bool) (plvl : Nat)
    (hdr : Nat → GzHeader) (mem : Nat → Nat) (zoneId : Nat) (zone : ZoneState)
    (zstats : ZStats) (ctr : GzCounters) (addr c : Nat)
    (huf : cfg.gzalloc_uf_mode = true)
    (hcc : cfg.gzalloc_consistency_checks = true)
    (halign : (addr - PAGE_SIZE) % PAGE_SIZE = 0)
    (hdf : (cfg.gzfc_size ≠ 0 ∧ cfg.gzalloc_dfree_check = true) →
      ringScan zone.gzfc (addr - PAGE_SIZE) cfg.gzfc_size = none)
    (hsig : (hdr (addr + zone.z_elem_size)).gzsig = GZALLOC_SIGNATURE)
    (hzone : (hdr (addr + zone.z_elem_size)).gzone = zoneId ∨
             (hdr (addr + zone.z_elem_size)).gzone = GZDEADZONE)
    (hsize : (hdr (addr + zone.z_elem_size)).gzsize = zone.z_elem_size) :
    gzalloc_free cfg kready plvl hdr mem zoneId zone zstats ctr addr =
        .error (.fillMismatch c addr (mem c)) ↔
      (addr + zone.z_elem_size + PTR_SIZE ≤ c ∧
       c < trunc_page addr + PAGE_SIZE ∧
       mem c ≠ gzalloc_fill_pattern ∧
       ∀ b, addr + zone.z_elem_size + PTR_SIZE ≤ b → b < c →
         mem b = gzalloc_fill_pattern) := by
  have hguard : (if cfg.gzfc_size ≠ 0 ∧ cfg.gzalloc_dfree_check = true then
      ringScan zone.gzfc (addr - PAGE_SIZE) cfg.gzfc_size else none) = none := by
    by_cases hg : cfg.gzfc_size ≠ 0 ∧ cfg.gzalloc_dfree_check = true
    · rw [if_pos hg]
      exact hdf hg
    · rw [if_neg hg]
  simp only [gzalloc_free, gz_hdr_addr, huf, if_true, hcc, true_and]
  rw [if_neg (by simp [halign])]
  rw [hguard]
  rw [if_neg (by simp [hsig])]
  rw [if_neg (by rcases hzone with h | h <;> simp [h])]
  rw [if_neg (by simp [hsize])]
  rcases hfc : fillCheck mem (addr + zone.z_elem_size + PTR_SIZE)
      (trunc_page addr + PAGE_SIZE - (addr + zone.z_elem_size + PTR_SIZE))
    with - | c'
  · simp only [hfc]
    refine iff_of_false ?_ ?_
    · intro h
      split at h <;> exact Except.noConfusion h
    · rintro ⟨h1, h2, h3, h4⟩
      have hsome : fillCheck mem (addr + zone.z_elem_size + PTR_SIZE)
          (trunc_page addr + PAGE_SIZE -
            (addr + zone.z_elem_size + PTR_SIZE)) = some c :=
        (fillCheck_eq_some_iff mem _ _ c).mpr ⟨h1, by omega, h3, h4⟩
      rw [hfc] at hsome
      exact Option.noConfusion hsome
  · simp only [hfc]
    have hc' := (fillCheck_eq_some_iff mem _ _ c').mp hfc
    constructor
    · intro h
      injection h with h
      injection h with hb ha hm
      subst hb
      exact ⟨hc'.1, by omega, hc'.2.2.1, hc'.2.2.2⟩
    · rintro ⟨h1, h2, h3, h4⟩
      have hcc' : c = c' := by
        rcases Nat.lt_trichotomy c c' with h | h | h
        · exact absurd (hc'.2.2.2 c h1 h) h3
        · exact h
        · exact absurd (h4 c' hc'.1 h) hc'.2.2.1
      rw [hcc']

/-- Inputs for the C1 counterexample: underflow mode, element size 4080 on
a page starting at 8192 (guard page below), header at 12272..12288; every
byte of memory is zero. -/
def c1xcfg : GzConfig :=
  { gzalloc_mode := true, gzalloc_min := 64, gzalloc_max := 4096,
    gzalloc_uf_mode := true, gzalloc_consistency_checks := true,
    gzalloc_dfree_check := false, gzfc_size := 0, gznamedzone := "" }

def c1xzone : ZoneState :=
  { z_name := "c1x", z_elem_size := 4080, z_gzalloc_tracked := true,
    gzfc := fun _ => 0, gzfc_index := 0, z_elems_free := 10, z_wired_cur := 5,
    z_va_cur := 5 }

def c1xhdr : Nat → GzHeader :=
  fun _ => { gzone := 1, gzsize := 4080, gzsig := GZALLOC_SIGNATURE }

def c1xmem : Nat → Nat := fun _ => 0

/-- Claim C1 counterexample: with element pointer 8192 and E = 4080 the
region the claim describes, [header_start + GZHEADER_SIZE,
round_page_up(8192 + 4080)) = [12288, 12288), is empty, so under the claim
this free cannot raise a fill-pattern panic; but gzalloc_free panics at
byte 12280 = header_start + 8, inside the last 8 bytes of the header,
because the scan starts at (uintptr_t)gzh + sizeof(gzh) with sizeof of the
pointer, not of the header. -/
theorem C1_counterexample :
    gzalloc_free c1xcfg true 0 c1xhdr c1xmem 1 c1xzone c2stats c2ctr 8192 =
      .error (.fillMismatch 12280 8192 0) ∧
    8192 + 4080 + GZHEADER_SIZE = round_page (8192 + 4080) ∧
    ¬ (8192 + 4080 + GZHEADER_SIZE ≤ 12280) :=
  ⟨rfl, by decide, by decide⟩

/-- Inputs for the C1 witness: element size 1024 at 8192; all bytes carry
the fill pattern except address 10000. -/
def c1wcfg : GzConfig :=
  { gzalloc_mode := true, gzalloc_min := 64, gzalloc_max := 4096,
    gzalloc_uf_mode := true, gzalloc_consistency_checks := true,
    gzalloc_dfree_check := false, gzfc_size := 0, gznamedzone := "" }

def c1wzone : ZoneState :=
  { z_name := "c1w", z_elem_size := 1024, z_gzalloc_tracked := true,
    gzfc := fun _ => 0, gzfc_index := 0, z_elems_free := 10, z_wired_cur := 5,
    z_va_cur := 5 }

def c1whdr : Nat → GzHeader :=
  fun _ => { gzone := 1, gzsize := 1024, gzsig := GZALLOC_SIGNATURE }

def c1wmem : Nat → Nat := fun c => if c = 10000 then 0 else gzalloc_fill_pattern

/-- Claim C1 witness (amended): the concrete underflow free panics exactly
at byte 10000, the first byte of [9224, 12288) whose content is not the
fill pattern. -/
theorem C1_uf_fill_region_witness :
    gzalloc_free c1wcfg true 0 c1whdr c1wmem 1 c1wzone c2stats c2ctr 8192 =
      .error (.fillMismatch 10000 8192 0) :=
  (C1_uf_fill_region c1wcfg true 0 c1whdr c1wmem 1 c1wzone c2stats c2ctr 8192
      10000 rfl rfl (by decide)
      (fun hg => absurd rfl hg.1)
      rfl (Or.inl rfl) rfl).mpr
    ⟨by decide, by decide, by decide, fun b _ hb2 => by
      simp only [c1wmem]
      rw [if_neg (by omega)]⟩

/-! ## Claim C4 -/

/-- The value of gzfc_index after m insertions into an initially empty ring
of capacity N: the C code lets the index run to N and wraps it to 0 only at
the start of the next insertion, so after at least one insertion the index
lies in [1, N]. -/
def idxAfter (N m : Nat) : Nat := if m = 0 then 0 else (m - 1) % N + 1

/-- The ring contents after feeding the list L into an initially empty ring
of capacity N: slot s holds the most recent element of L whose (0-based)
insertion position is congruent to s modulo N, and 0 when no insertion hit
the slot. -/
def gzfc_model (N : Nat) (L : List Nat) : Nat → Nat := fun s =>
  if N ≤ s then 0
  else if s < L.length % N then L.getD (L.length / N * N + s) 0
  else if N ≤ L.length then L.getD ((L.length / N - 1) * N + s) 0
  else 0

/-- Successor of m modulo N, wrap case. -/
theorem mod_div_succ_wrap (N m : Nat) (hN : 0 < N) (h : m % N + 1 = N) :
    (m + 1) % N = 0 ∧ (m + 1) / N = m / N + 1 := by
  have hqr : m / N * N + m % N = m := Nat.div_add_mod' m N
  have hm1 : m + 1 = (m / N + 1) * N := by
    rw [Nat.add_mul, one_mul]
    omega
  constructor
  · rw [hm1]
    exact Nat.mul_mod_left _ _
  · rw [hm1]
    exact Nat.mul_div_cancel _ hN

/-- Successor of m modulo N, non-wrap case. -/
theorem mod_div_succ_nowrap (N m : Nat) (hN : 0 < N) (h : m % N + 1 ≠ N) :
    (m + 1) % N = m % N + 1 ∧ (m + 1) / N = m / N := by
  have hqr : m / N * N + m % N = m := Nat.div_add_mod' m N
  have hr : m % N < N := Nat.mod_lt _ hN
  have hm1 : m + 1 = m % N + 1 + m / N * N := by omega
  constructor
  · rw [hm1, Nat.add_mul_mod_self_right]
    exact Nat.mod_eq_of_lt (by omega)
  · rw [hm1, Nat.add_mul_div_right _ _ hN]
    rw [Nat.div_eq_of_lt (by omega)]
    omega

/-- The slot the next insertion writes, computed from the stored index, is
the insertion count modulo N. -/
theorem idx_slot (N m : Nat) (hN : 0 < N) :
    (if N ≤ idxAfter N m then 0 else idxAfter N m) = m % N := by
  unfold idxAfter
  rcases m with - | m'
  · rw [if_pos rfl, if_neg (by omega)]
    exact (Nat.zero_mod N).symm
  · rw [if_neg (Nat.succ_ne_zero m')]
    simp only [Nat.add_sub_cancel]
    by_cases hw : m' % N + 1 = N
    · obtain ⟨h1, -⟩ := mod_div_succ_wrap N m' hN hw
      rw [if_pos (by omega), h1]
    · obtain ⟨h1, -⟩ := mod_div_succ_nowrap N m' hN hw
      have : m' % N < N := Nat.mod_lt _ hN
      rw [if_neg (by omega), h1]

/-- The index after one more insertion. -/
theorem idxAfter_succ (N m : Nat) : idxAfter N (m + 1) = m % N + 1 := by
  unfold idxAfter
  rw [if_neg (Nat.succ_ne_zero m)]
  simp only [Nat.add_sub_cancel]

/-- Reading the slot about to be overwritten: it holds the element inserted
N steps ago, or 0 while the ring is still filling. -/
theorem gzfc_model_at_slot (N : Nat) (hN : 0 < N) (L : List Nat) :
    gzfc_model N L (L.length % N) =
      if N ≤ L.length then L.getD (L.length - N) 0 else 0 := by
  have hr : L.length % N < N := Nat.mod_lt _ hN
  unfold gzfc_model
  rw [if_neg (by omega), if_neg (by omega)]
  by_cases hNm : N ≤ L.length
  · rw [if_pos hNm, if_pos hNm]
    congr 1
    have hq1 : 1 ≤ L.length / N := (Nat.one_le_div_iff hN).mpr hNm
    have hqr : L.length / N * N + L.length % N = L.length :=
      Nat.div_add_mod' L.length N
    have hsub : (L.length / N - 1) * N = L.length / N * N - N := by
      rw [Nat.sub_mul, one_mul]
    have hAN : N ≤ L.length / N * N := by
      calc N = 1 * N := (one_mul N).symm
        _ ≤ L.length / N * N := Nat.mul_le_mul_right N hq1
    omega
  · rw [if_neg hNm, if_neg hNm]

/-- getD at the appended position. -/
theorem getD_concat_self (L : List Nat) (a : Nat) :
    (L ++ [a]).getD L.length 0 = a := by
  rw [List.getD_append_right L [a] 0 L.length (Nat.le_refl _)]
  simp

/-- Appending one element updates exactly the slot its insertion position
maps to, and leaves every other slot of the ring model unchanged. -/
theorem gzfc_model_concat (N : Nat) (hN : 0 < N) (L : List Nat) (a : Nat) :
    gzfc_model N (L ++ [a]) =
      fun s => if s = L.length % N then a else gzfc_model N L s := by
  funext s
  have hr : L.length % N < N := Nat.mod_lt _ hN
  have hqr : L.length / N * N + L.length % N = L.length := Nat.div_add_mod' _ _
  by_cases hsN : N ≤ s
  · rw [if_neg (by omega : ¬ s = L.length % N)]
    show gzfc_model N (L ++ [a]) s = gzfc_model N L s
    unfold gzfc_model
    rw [if_pos hsN, if_pos hsN]
  · simp only [gzfc_model, List.length_append, List.length_singleton,
      if_neg hsN]
    by_cases hw : L.length % N + 1 = N
    · obtain ⟨h1, h2⟩ := mod_div_succ_wrap N L.length hN hw
      rw [h1, h2]
      rcases Nat.lt_trichotomy s (L.length % N) with hs | hs | hs
      · rw [if_neg (by omega : ¬ s < 0),
          if_pos (by omega : N ≤ L.length + 1), Nat.add_sub_cancel,
          if_neg (by omega : ¬ s = L.length % N), if_pos hs]
        exact List.getD_append _ _ _ _ (by omega)
      · rw [if_neg (by omega : ¬ s < 0),
          if_pos (by omega : N ≤ L.length + 1), Nat.add_sub_cancel,
          if_pos (by omega : s = L.length % N)]
        rw [show L.length / N * N + s = L.length by omega]
        exact getD_concat_self L a
      · omega
    · obtain ⟨h1, h2⟩ := mod_div_succ_nowrap N L.length hN hw
      rw [h1, h2]
      rcases Nat.lt_trichotomy s (L.length % N) with hs | hs | hs
      · rw [if_pos (by omega : s < L.length % N + 1),
          if_neg (by omega : ¬ s = L.length % N), if_pos hs]
        exact List.getD_append _ _ _ _ (by omega)
      · rw [if_pos (by omega : s < L.length % N + 1),
          if_pos (by omega : s = L.length % N)]
        rw [show L.length / N * N + s = L.length by omega]
        exact getD_concat_self L a
      · rw [if_neg (by omega : ¬ s < L.length % N + 1),
          if_neg (by omega : ¬ s = L.length % N),
          if_neg (by omega : ¬ s < L.length % N)]
        by_cases hNl : N ≤ L.length
        · have hq1 : 1 ≤ L.length / N := (Nat.one_le_div_iff hN).mpr hNl
          have hsub : (L.length / N - 1) * N = L.length / N * N - N := by
            rw [Nat.sub_mul, one_mul]
          have hAN : N ≤ L.length / N * N := by
            calc N = 1 * N := (one_mul N).symm
              _ ≤ L.length / N * N := Nat.mul_le_mul_right N hq1
          rw [if_pos (by omega : N ≤ L.length + 1), if_pos hNl]
          exact List.getD_append _ _ _ _ (by omega)
        · have hq0 : L.length / N = 0 := Nat.div_eq_of_lt (by omega)
          have hml : L.length % N = L.length := Nat.mod_eq_of_lt (by omega)
          have hcontra : ¬ N ≤ L.length + 1 := by omega
          rw [if_neg hcontra, if_neg hNl]

/-- The state of the free cache after any sequence of frees of non-null
base addresses, starting from an empty ring: the ring is gzfc_model, the
index is idxAfter, and the addresses released to the arena are exactly the
frees older than the last N, in insertion order. -/
theorem gzfc_run_eq (N : Nat) (hN : 0 < N) (L : List Nat) :
    (∀ x ∈ L, x ≠ 0) →
      gzfc_run N L =
        (gzfc_model N L, idxAfter N L.length, L.take (L.length - N)) := by
  induction L using List.reverseRecOn with
  | nil =>
    intro _h0
    have hf : gzfc_model N [] = (fun _ => (0 : Nat)) := by
      funext s
      unfold gzfc_model
      simp only [List.length_nil, Nat.zero_mod]
      rcases le_or_lt N s with h | h
      · rw [if_pos h]
      · rw [if_neg (by omega), if_neg (by omega), if_neg (by omega)]
    rw [show gzfc_run N [] = ((fun _ => (0 : Nat)), 0, ([] : List Nat))
      from rfl, hf]
    simp [idxAfter]
  | append_singleton L a ih =>
    intro h0
    have h0L : ∀ x ∈ L, x ≠ 0 := fun x hx => h0 x (List.mem_append_left _ hx)
    have hstep : gzfc_run N (L ++ [a]) = gzfc_step N (gzfc_run N L) a := by
      unfold gzfc_run
      rw [List.foldl_append]
      rfl
    rw [hstep, ih h0L]
    unfold gzfc_step gzfc_insert
    simp only []
    rw [idx_slot N L.length hN]
    rw [gzfc_model_concat N hN L a]
    rw [List.length_append, List.length_singleton]
    rw [idxAfter_succ]
    rw [gzfc_model_at_slot N hN L]
    by_cases hNm : N ≤ L.length
    · rw [if_pos hNm]
      have hlt : L.length - N < L.length := by omega
      have hne : L.getD (L.length - N) 0 ≠ 0 := by
        rw [List.getD_eq_getElem _ _ hlt]
        exact h0L _ (List.getElem_mem hlt)
      rw [if_pos hne]
      simp only [Prod.mk.injEq]
      refine ⟨trivial, trivial, ?_⟩
      rw [show L.length + 1 - N = (L.length - N) + 1 by omega]
      rw [List.take_append_eq_append_take]
      rw [Nat.sub_eq_zero_of_le (by omega : L.length - N + 1 ≤ L.length)]
      rw [List.take_zero, List.append_nil]
      rw [List.take_succ]
      rw [List.getElem?_eq_getElem hlt]
      rw [List.getD_eq_getElem _ _ hlt]
      rfl
    · rw [if_neg hNm]
      rw [if_neg (by simp : ¬ (0 : Nat) ≠ 0)]
      simp only [Prod.mk.injEq]
      refine ⟨trivial, trivial, ?_⟩
      rw [show L.length - N = 0 by omega, show L.length + 1 - N = 0 by omega]
      simp

/-- Membership through getD positions. -/
theorem mem_iff_exists_getD (L : List Nat) (x : Nat) :
    x ∈ L ↔ ∃ j, j < L.length ∧ L.getD j 0 = x := by
  induction L with
  | nil => simp
  | cons a t ih =>
    simp only [List.mem_cons, ih, List.length_cons]
    constructor
    · rintro (rfl | ⟨j, hj, hget⟩)
      · exact ⟨0, by omega, rfl⟩
      · exact ⟨j + 1, by omega, hget⟩
    · rintro ⟨j, hj, hget⟩
      rcases j with - | j'
      · exact Or.inl hget.symm
      · exact Or.inr ⟨j', by omega, hget⟩

/-- Membership in a drop, through getD positions. -/
theorem mem_drop_iff_getD (k : Nat) (L : List Nat) (x : Nat) :
    x ∈ L.drop k ↔ ∃ j, k ≤ j ∧ j < L.length ∧ L.getD j 0 = x := by
  induction k generalizing L with
  | zero =>
    simp only [List.drop_zero, mem_iff_exists_getD]
    constructor
    · rintro ⟨j, hj, hget⟩
      exact ⟨j, by omega, hj, hget⟩
    · rintro ⟨j, -, hj, hget⟩
      exact ⟨j, hj, hget⟩
  | succ k ih =>
    cases L with
    | nil => simp
    | cons a t =>
      simp only [List.drop_succ_cons, ih, List.length_cons]
      constructor
      · rintro ⟨j, hj1, hj2, hget⟩
        exact ⟨j + 1, by omega, by omega, hget⟩
      · rintro ⟨j, hj1, hj2, hget⟩
        rcases j with - | j'
        · omega
        · exact ⟨j', by omega, by omega, hget⟩

/-- Claim C4: feeding N + k successive frees of distinct non-null base
addresses into an initially empty free cache of capacity N releases, in
strict insertion order, exactly the k earliest-freed addresses; the ring
then holds exactly the N most recently freed addresses, and it never holds
more than N entries. -/
theorem C4_free_cache_lru (N k : Nat) (L : List Nat) (hN : 0 < N)
    (hlen : L.length = N + k) (h0 : ∀ x ∈ L, x ≠ 0) (_hnd : L.Nodup) :
    (gzfc_run N L).2.2 = L.take k ∧
    (∀ x, (∃ s, s < N ∧ (gzfc_run N L).1 s = x) ↔ x ∈ L.drop k) ∧
    ((Finset.range N).image (gzfc_run N L).1).card ≤ N := by
  rw [gzfc_run_eq N hN L h0]
  simp only []
  refine ⟨?_, ?_, ?_⟩
  · rw [hlen, Nat.add_sub_cancel_left]
  · intro x
    rw [mem_drop_iff_getD]
    have hqr : L.length / N * N + L.length % N = L.length :=
      Nat.div_add_mod' _ _
    have hr : L.length % N < N := Nat.mod_lt _ hN
    have hNl : N ≤ L.length := by omega
    have hq1 : 1 ≤ L.length / N := (Nat.one_le_div_iff hN).mpr hNl
    have hsub : (L.length / N - 1) * N = L.length / N * N - N := by
      rw [Nat.sub_mul, one_mul]
    have hAN : N ≤ L.length / N * N := by
      calc N = 1 * N := (one_mul N).symm
        _ ≤ L.length / N * N := Nat.mul_le_mul_right N hq1
    constructor
    · rintro ⟨s, hsN, hval⟩
      unfold gzfc_model at hval
      rw [if_neg (by omega)] at hval
      by_cases hs : s < L.length % N
      · rw [if_pos hs] at hval
        exact ⟨L.length / N * N + s, by omega, by omega, hval⟩
      · rw [if_neg hs, if_pos hNl] at hval
        exact ⟨(L.length / N - 1) * N + s, by omega, by omega, hval⟩
    · rintro ⟨j, hj1, hj2, hget⟩
      by_cases hjq : L.length / N * N ≤ j
      · refine ⟨j - L.length / N * N, by omega, ?_⟩
        unfold gzfc_model
        rw [if_neg (by omega), if_pos (by omega)]
        rw [show L.length / N * N + (j - L.length / N * N) = j by omega]
        exact hget
      · refine ⟨j - (L.length / N - 1) * N, by omega, ?_⟩
        unfold gzfc_model
        rw [if_neg (by omega), if_neg (by omega), if_pos hNl]
        rw [show (L.length / N - 1) * N + (j - (L.length / N - 1) * N) = j
          by omega]
        exact hget
  · exact le_trans Finset.card_image_le (by simp)

/-- Claim C4 witness: capacity 2, three distinct frees; the first base
address is released, the ring retains the last two. -/
theorem C4_free_cache_lru_witness :
    (gzfc_run 2 [4096, 12288, 20480]).2.2 = [4096, 12288, 20480].take 1 ∧
    (∀ x, (∃ s, s < 2 ∧ (gzfc_run 2 [4096, 12288, 20480]).1 s = x) ↔
      x ∈ [4096, 12288, 20480].drop 1) ∧
    ((Finset.range 2).image (gzfc_run 2 [4096, 12288, 20480]).1).card ≤ 2 :=
  C4_free_cache_lru 2 1 [4096, 12288, 20480] (by decide) rfl (by decide)
    (by decide)
